import Mathlib

/-!
Shallow embedding of the blog-post API in `backend_app.py`.

The program keeps a global list `POSTS` of dictionaries
`{"id": int, "title": str, "content": str}` and exposes five operations:
`list_posts`, `add_post`, `delete_post`, `update_post`, `search_posts`.
The global mutable list is modelled by explicit state passing: every
mutating operation takes the current list of posts and returns the
HTTP-level outcome together with the new list.
-/

/-- A JSON value appearing in a request body. The embedded code looks at a
body value either through Python truthiness (`if not title`) or through
`isinstance(v, str)`, so a value is modelled as a string, or as a non-string
value of which only its Python truthiness is retained. -/
inductive JVal where
  | str (s : String)
  | other (truthy : Bool)
deriving DecidableEq, Repr

/-- A request body: `request.get_json(silent=True) or {}` is a JSON object,
modelled as an association list. JSON object keys are unique, and
`List.lookup` returns the first binding, matching `dict.get`. -/
abbrev Body := List (String × JVal)

/-- A stored post `{"id": ..., "title": ..., "content": ...}`. The data model
documents `title` and `content` as text, which the seed data satisfies. -/
structure Post where
  id : Nat
  title : String
  content : String
deriving DecidableEq, Repr

/-- Python truthiness of `data.get(k)`: `None` (an absent key) and the empty
string are falsy; any other string is truthy. -/
def pyTruthy : Option JVal → Bool
  | none => false
  | some (.str s) => s != ""
  | some (.other b) => b

/-- The text stored for a body value that passed the truthiness check in
`add_post`. A truthy non-string value would be stored as-is by the Python
code, producing a post outside the documented data model (every later read
calls `.lower()` on the field and raises `TypeError`); such a value is
represented by `""` here. A truthy string is stored unchanged. -/
def asStoredText : Option JVal → String
  | some (.str s) => s
  | _ => ""

/-- Python `str.lower()`, stated on the character list so that it computes by
kernel reduction (ASCII case mapping, as in `String.toLower`). -/
def lowerStr (s : String) : String :=
  ⟨s.data.map Char.toLower⟩

/-- Python `str.strip()`: whitespace removed from both ends. -/
def trimStr (s : String) : String :=
  ⟨((s.data.dropWhile Char.isWhitespace).reverse.dropWhile Char.isWhitespace).reverse⟩

/-- `(args.get(k) or dflt).strip().lower()` / `args.get(k, dflt).strip().lower()`:
normalisation applied to every query parameter the code reads. `none` models
an absent parameter. -/
def pyNorm (arg : Option String) (dflt : String) : String :=
  lowerStr (trimStr (arg.getD dflt))

/-- Python substring containment `needle in hay` on lists of characters. -/
def containsSub (needle : List Char) : List Char → Bool
  | [] => needle.isEmpty
  | c :: rest => needle.isPrefixOf (c :: rest) || containsSub needle rest

/-- Python `needle in hay` on strings. -/
def strContains (hay needle : String) : Bool :=
  containsSub needle.data hay.data

/-- `get_post_index_by_id`: index of the first post with the given id.
The Python function returns `-1` when absent, modelled as `none`. -/
def get_post_index_by_id (posts : List Post) (post_id : Nat) : Option Nat :=
  posts.findIdx? (fun post => post.id == post_id)

/-- `next_id`: `1` if the collection is empty, otherwise
`max(post["id"] for post in POSTS) + 1`. Python `max` over a non-empty
sequence of ids coincides with the fold below (ids are naturals). -/
def next_id (posts : List Post) : Nat :=
  match posts with
  | [] => 1
  | _ => (posts.foldl (fun m post => Nat.max m post.id) 0) + 1

/-- Outcome of `add_post`: `201` with the created post, or `400` with the
list of missing field names (joined into the message by the code). -/
inductive CreateResult where
  | created (post : Post)
  | badRequest (missing : List String)
deriving DecidableEq, Repr

/-- Outcome of `delete_post`: `200` with a confirmation naming the id,
or `404`. -/
inductive DeleteResult where
  | deleted (post_id : Nat)
  | notFound
deriving DecidableEq, Repr

/-- Outcome of `update_post`: `200` with the updated post, or `404`. -/
inductive UpdateResult where
  | updated (post : Post)
  | notFound
deriving DecidableEq, Repr

/-- Outcome of `list_posts`: `200` with a list of posts, or `400` with an
error message. -/
inductive ListResult where
  | ok (posts : List Post)
  | badRequest (msg : String)
deriving DecidableEq, Repr

/-- `add_post` (POST /api/posts). Collects the names of all falsy required
fields; on any missing field returns `400` naming them all, otherwise
appends a post with a fresh id. -/
def add_post (posts : List Post) (data : Body) : CreateResult × List Post :=
  let title := data.lookup "title"
  let content := data.lookup "content"
  let missing :=
    (if pyTruthy title then [] else ["title"]) ++
    (if pyTruthy content then [] else ["content"])
  if missing.isEmpty then
    let new_post : Post := ⟨next_id posts, asStoredText title, asStoredText content⟩
    (.created new_post, posts ++ [new_post])
  else
    (.badRequest missing, posts)

/-- `delete_post` (DELETE /api/posts/<id>): `POSTS.pop(idx)` on the found
index, `404` otherwise. -/
def delete_post (posts : List Post) (post_id : Nat) : DeleteResult × List Post :=
  match get_post_index_by_id posts post_id with
  | none => (.notFound, posts)
  | some idx => (.deleted post_id, posts.eraseIdx idx)

/-- `update_post` (PUT /api/posts/<id>). A field is overwritten exactly when
the body binds it to a string (`"title" in data and isinstance(data["title"], str)`);
the inner `none` branch is unreachable because `findIdx?` returns an
in-range index. -/
def update_post (posts : List Post) (post_id : Nat) (data : Body) :
    UpdateResult × List Post :=
  match get_post_index_by_id posts post_id with
  | none => (.notFound, posts)
  | some idx =>
    match posts[idx]? with
    | none => (.notFound, posts)
    | some post =>
      let post :=
        { post with title :=
            match data.lookup "title" with
            | some (.str s) => s
            | _ => post.title }
      let post :=
        { post with content :=
            match data.lookup "content" with
            | some (.str s) => s
            | _ => post.content }
      (.updated post, posts.set idx post)

/-- Python `sorted(POSTS, key=key_fn, reverse=rev)`: a stable sort; with
`reverse=True` elements with equal keys still keep their original order. -/
def pySorted (key : Post → String) (rev : Bool) (l : List Post) : List Post :=
  l.mergeSort (fun a b =>
    if rev then decide (key b ≤ key a) else decide (key a ≤ key b))

/-- `list_posts` (GET /api/posts). Note the order of the checks: an empty
`sort` returns the collection before `direction` is ever inspected. The sort
key is `(post.get(sort) or "").lower()`, which on string fields equals the
lower-cased field (the `or ""` only maps the falsy `""` to itself). -/
def list_posts (posts : List Post) (sortArg dirArg : Option String) : ListResult :=
  let sort := pyNorm sortArg ""
  let direction := pyNorm dirArg "asc"
  if sort == "" then .ok posts
  else if !(sort == "title" || sort == "content") then
    .badRequest ("Invalid sort field " ++ sort ++ ". Allowed: title, content.")
  else if !(direction == "asc" || direction == "desc") then
    .badRequest ("Invalid direction " ++ direction ++ ". Allowed: asc, desc.")
  else
    let key := fun post => lowerStr (if sort == "title" then post.title else post.content)
    .ok (pySorted key (direction == "desc") posts)

/-- `search_posts` (GET /api/posts/search): early exit on two empty queries,
otherwise the loop appends, in collection order, every post whose lowered
title contains the title query (when non-empty) or whose lowered content
contains the content query (when non-empty). -/
def search_posts (posts : List Post) (titleArg contentArg : Option String) :
    List Post :=
  let title_query := pyNorm titleArg ""
  let content_query := pyNorm contentArg ""
  if title_query == "" && content_query == "" then []
  else posts.filter (fun post =>
    (title_query != "" && strContains (lowerStr post.title) title_query) ||
    (content_query != "" && strContains (lowerStr post.content) content_query))

/-- Run a sequence of create calls against the store, also returning, in call
order, the ids assigned by the successful creates. -/
def runCreates (posts : List Post) : List Body → List Post × List Nat
  | [] => (posts, [])
  | data :: rest =>
    match add_post posts data with
    | (.created post, posts1) =>
      let out := runCreates posts1 rest
      (out.1, post.id :: out.2)
    | (.badRequest _, posts1) =>
      runCreates posts1 rest

/-! ### Facts about `next_id` -/

theorem foldMax_init_le : ∀ (l : List Post) (a : Nat),
    a ≤ l.foldl (fun m p => Nat.max m p.id) a
  | [], a => Nat.le_refl a
  | p :: l, a => Nat.le_trans (Nat.le_max_left a p.id) (foldMax_init_le l _)

theorem le_foldMax_of_mem {l : List Post} {p : Post} (h : p ∈ l) (a : Nat) :
    p.id ≤ l.foldl (fun m q => Nat.max m q.id) a := by
  induction l generalizing a with
  | nil => cases h
  | cons q l ih =>
    rcases List.mem_cons.mp h with h1 | h2
    · subst h1
      exact Nat.le_trans (Nat.le_max_right a p.id) (foldMax_init_le l _)
    · exact ih h2 _

theorem foldMax_attained : ∀ (l : List Post) (a : Nat), l ≠ [] →
    ∃ p ∈ l, l.foldl (fun m q => Nat.max m q.id) a = Nat.max a p.id := by
  intro l
  induction l with
  | nil => intro a h; exact absurd rfl h
  | cons q l ih =>
    intro a _
    cases l with
    | nil => exact ⟨q, List.mem_cons_self q [], rfl⟩
    | cons r l2 =>
      obtain ⟨p, hp, hEq⟩ := ih (Nat.max a q.id) (by simp)
      by_cases hle : q.id ≤ p.id
      · refine ⟨p, List.mem_cons_of_mem _ hp, ?_⟩
        rw [List.foldl_cons, hEq]
        simp only [Nat.max_def]
        split_ifs <;> omega
      · refine ⟨q, List.mem_cons_self q _, ?_⟩
        rw [List.foldl_cons, hEq]
        simp only [Nat.max_def]
        split_ifs <;> omega

/-- Every id already in the store is strictly below `next_id`. -/
theorem next_id_gt {posts : List Post} {p : Post} (h : p ∈ posts) :
    p.id < next_id posts := by
  cases posts with
  | nil => cases h
  | cons q l =>
    have hle := le_foldMax_of_mem h 0
    simp only [next_id]
    omega

/-- On a non-empty store, `next_id` is `(max existing id) + 1`. -/
theorem next_id_eq_max_succ {posts : List Post} (h : posts ≠ []) :
    ∃ p ∈ posts, next_id posts = p.id + 1 := by
  cases posts with
  | nil => exact absurd rfl h
  | cons q l =>
    obtain ⟨p, hp, hEq⟩ := foldMax_attained (q :: l) 0 (by simp)
    refine ⟨p, hp, ?_⟩
    simp only [next_id, hEq, Nat.zero_max]

/-! ### Shape lemmas for `add_post` -/

theorem add_post_of_truthy {posts : List Post} {data : Body}
    (ht : pyTruthy (data.lookup "title") = true)
    (hc : pyTruthy (data.lookup "content") = true) :
    add_post posts data =
      (CreateResult.created
          ⟨next_id posts, asStoredText (data.lookup "title"),
            asStoredText (data.lookup "content")⟩,
        posts ++
          [⟨next_id posts, asStoredText (data.lookup "title"),
            asStoredText (data.lookup "content")⟩]) := by
  simp [add_post, ht, hc]

theorem add_post_of_not_truthy {posts : List Post} {data : Body}
    (h : ¬(pyTruthy (data.lookup "title") = true
          ∧ pyTruthy (data.lookup "content") = true)) :
    add_post posts data =
      (CreateResult.badRequest
          ((if pyTruthy (data.lookup "title") then [] else ["title"]) ++
            (if pyTruthy (data.lookup "content") then [] else ["content"])),
        posts) := by
  cases ht : pyTruthy (data.lookup "title") <;>
    cases hc : pyTruthy (data.lookup "content") <;>
    simp_all [add_post]

theorem add_post_shape (posts : List Post) (data : Body) :
    (∃ post, add_post posts data = (CreateResult.created post, posts ++ [post])
        ∧ post.id = next_id posts)
    ∨ (∃ m, add_post posts data = (CreateResult.badRequest m, posts)) := by
  by_cases ht : pyTruthy (data.lookup "title") = true
  · by_cases hc : pyTruthy (data.lookup "content") = true
    · exact Or.inl ⟨_, add_post_of_truthy ht hc, rfl⟩
    · exact Or.inr ⟨_, add_post_of_not_truthy (by tauto)⟩
  · exact Or.inr ⟨_, add_post_of_not_truthy (by tauto)⟩

/-- Structure of a run of create calls: the store only grows at the end, the
appended posts carry exactly the assigned ids, the assigned ids are strictly
increasing, and each assigned id is strictly above every id present at the
start of the run. -/
theorem runCreates_spec (bodies : List Body) :
    ∀ posts : List Post,
      ∃ rest, (runCreates posts bodies).1 = posts ++ rest
        ∧ rest.map Post.id = (runCreates posts bodies).2
        ∧ List.Pairwise (fun a b => a < b) (runCreates posts bodies).2
        ∧ ∀ i ∈ (runCreates posts bodies).2, ∀ p ∈ posts, p.id < i := by
  induction bodies with
  | nil =>
    intro posts
    exact ⟨[], by simp [runCreates], by simp [runCreates],
      by simp [runCreates], by simp [runCreates]⟩
  | cons data bodies ih =>
    intro posts
    rcases add_post_shape posts data with ⟨post, hEq, hid⟩ | ⟨m, hEq⟩
    · obtain ⟨rest, h1, h2, h3, h4⟩ := ih (posts ++ [post])
      refine ⟨post :: rest, ?_, ?_, ?_, ?_⟩
      · simp only [runCreates, hEq, h1, List.append_assoc, List.singleton_append]
      · simp only [runCreates, hEq, List.map_cons, h2]
      · simp only [runCreates, hEq]
        refine List.pairwise_cons.mpr ⟨fun i hi => ?_, h3⟩
        exact h4 i hi post (List.mem_append_right posts (List.mem_cons_self post []))
      · simp only [runCreates, hEq]
        intro i hi p hp
        rcases List.mem_cons.mp hi with h | h
        · subst h
          have := next_id_gt hp
          omega
        · exact h4 i h p (List.mem_append_left _ hp)
    · obtain ⟨rest, h1, h2, h3, h4⟩ := ih posts
      exact ⟨rest, by simp only [runCreates, hEq]; exact h1,
        by simp only [runCreates, hEq]; exact h2,
        by simp only [runCreates, hEq]; exact h3,
        by simp only [runCreates, hEq]; exact h4⟩

/-! ### Claim C7: next_id and create -/

/-- C7: `next_id()` returns 1 on the empty collection and (max existing id) + 1
otherwise, and a valid create assigns this id and appends the new post to the
end of the sequence. -/
theorem next_id_create_spec (posts : List Post) (data : Body)
    (ht : pyTruthy (data.lookup "title") = true)
    (hc : pyTruthy (data.lookup "content") = true) :
    next_id [] = 1
    ∧ (posts ≠ [] →
        (∀ p ∈ posts, p.id < next_id posts)
        ∧ ∃ p ∈ posts, next_id posts = p.id + 1)
    ∧ ∃ post, add_post posts data = (CreateResult.created post, posts ++ [post])
        ∧ post.id = next_id posts := by
  refine ⟨rfl, fun h => ⟨fun p hp => next_id_gt hp, next_id_eq_max_succ h⟩, ?_⟩
  exact ⟨_, add_post_of_truthy ht hc, rfl⟩

/-- Witness for C7 at a concrete store and a concrete valid body. -/
theorem next_id_create_spec_witness :
    pyTruthy ((([("title", JVal.str "T"), ("content", JVal.str "C")] : Body)).lookup "title") = true
    ∧ ∃ post,
        add_post [⟨1, "A", "a"⟩, ⟨3, "B", "b"⟩]
            [("title", JVal.str "T"), ("content", JVal.str "C")]
          = (CreateResult.created post, [⟨1, "A", "a"⟩, ⟨3, "B", "b"⟩] ++ [post])
        ∧ post.id = next_id [⟨1, "A", "a"⟩, ⟨3, "B", "b"⟩] :=
  ⟨by decide,
    (next_id_create_spec [⟨1, "A", "a"⟩, ⟨3, "B", "b"⟩]
      [("title", JVal.str "T"), ("content", JVal.str "C")]
      (by decide) (by decide)).2.2⟩

/-! ### Claim C8: ids assigned by create runs -/

/-- C8: from any starting state, the ids assigned by a sequence of successful
create calls are strictly increasing, and each of them occurs exactly once in
the resulting store. -/
theorem create_ids_increasing_unique (posts : List Post) (bodies : List Body) :
    List.Pairwise (fun a b => a < b) (runCreates posts bodies).2
    ∧ ∀ i ∈ (runCreates posts bodies).2,
        List.count i (((runCreates posts bodies).1).map Post.id) = 1 := by
  obtain ⟨rest, h1, h2, h3, h4⟩ := runCreates_spec bodies posts
  refine ⟨h3, fun i hi => ?_⟩
  rw [h1, List.map_append, List.count_append, h2]
  have hz : List.count i (posts.map Post.id) = 0 := by
    rw [List.count_eq_zero]
    intro hmem
    obtain ⟨p, hp, hpe⟩ := List.mem_map.mp hmem
    have := h4 i hi p hp
    omega
  have hnd : ((runCreates posts bodies).2).Nodup :=
    h3.imp (fun h => Nat.ne_of_lt h)
  rw [hz, List.count_eq_one_of_mem hnd hi]

/-- Witness for C8 at a concrete store and body sequence. -/
theorem create_ids_increasing_unique_witness :
    List.Pairwise (fun a b => a < b)
      (runCreates [⟨2, "a", "b"⟩]
        [[("title", JVal.str "T"), ("content", JVal.str "C")],
          [("title", JVal.str "U"), ("content", JVal.str "D")]]).2
    ∧ ∀ i ∈ (runCreates [⟨2, "a", "b"⟩]
        [[("title", JVal.str "T"), ("content", JVal.str "C")],
          [("title", JVal.str "U"), ("content", JVal.str "D")]]).2,
        List.count i (((runCreates [⟨2, "a", "b"⟩]
          [[("title", JVal.str "T"), ("content", JVal.str "C")],
            [("title", JVal.str "U"), ("content", JVal.str "D")]]).1).map Post.id) = 1 :=
  create_ids_increasing_unique [⟨2, "a", "b"⟩]
    [[("title", JVal.str "T"), ("content", JVal.str "C")],
      [("title", JVal.str "U"), ("content", JVal.str "D")]]

/-! ### Claim C1: reuse of deleted ids -/

/-- C1 fails as stated: deleting the maximal id 2 and then creating a post
reassigns id 2. -/
theorem deleted_id_reused_example :
    (delete_post [⟨1, "First", "a"⟩, ⟨2, "Second", "b"⟩] 2).1
      = DeleteResult.deleted 2
    ∧ (add_post (delete_post [⟨1, "First", "a"⟩, ⟨2, "Second", "b"⟩] 2).2
        [("title", JVal.str "New"), ("content", JVal.str "Body")]).1
      = CreateResult.created ⟨2, "New", "Body"⟩ := by
  decide

/-- C1 amended: after `delete(id)`, no sequence of create calls ever
reassigns the deleted id, provided a post with an id at least as large
remains in the store (deleting the current maximum id is reassigned by the
code, as the counterexample shows). -/
theorem deleted_id_not_reassigned (posts : List Post) (d : Nat) (bodies : List Body)
    (h : ∃ p ∈ (delete_post posts d).2, d ≤ p.id) :
    ∀ i ∈ (runCreates (delete_post posts d).2 bodies).2, i ≠ d := by
  obtain ⟨p, hp, hd⟩ := h
  intro i hi
  obtain ⟨rest, -, -, -, h4⟩ := runCreates_spec bodies ((delete_post posts d).2)
  have := h4 i hi p hp
  omega

/-- Witness for the amended C1 at a concrete store: delete id 1 while id 3
remains, then create once; the assigned id list is `[4]` and 4 ≠ 1. -/
theorem deleted_id_not_reassigned_witness :
    (runCreates (delete_post [⟨1, "A", "a"⟩, ⟨3, "B", "b"⟩] 1).2
        [[("title", JVal.str "T"), ("content", JVal.str "C")]]).2 = [4]
    ∧ (4 : Nat) ≠ 1 :=
  ⟨by decide,
    deleted_id_not_reassigned [⟨1, "A", "a"⟩, ⟨3, "B", "b"⟩] 1
      [[("title", JVal.str "T"), ("content", JVal.str "C")]]
      ⟨⟨3, "B", "b"⟩, by decide, by decide⟩ 4 (by decide)⟩

/-! ### Lookup-by-id facts -/

theorem find_index_lt {posts : List Post} {pid idx : Nat}
    (h : get_post_index_by_id posts pid = some idx) :
    ∃ hlt : idx < posts.length, posts[idx].id = pid := by
  obtain ⟨hlt, hp, -⟩ := List.findIdx?_eq_some_iff_getElem.mp h
  exact ⟨hlt, by simpa using hp⟩

theorem list_set_self {α : Type _} (l : List α) (i : Nat) (h : i < l.length) :
    l.set i l[i] = l := by
  apply List.ext_getElem (by simp)
  intro j h1 h2
  rw [List.getElem_set]
  split <;> simp_all

/-! ### Claim C10: failed operations do not mutate the store -/

/-- C10: the `400` branch of create and the `404` branches of delete and
update return before any mutation, so the store is unchanged. -/
theorem failed_ops_leave_store (posts : List Post) (data : Body) (pid : Nat) :
    (∀ m, (add_post posts data).1 = CreateResult.badRequest m →
        (add_post posts data).2 = posts)
    ∧ ((delete_post posts pid).1 = DeleteResult.notFound →
        (delete_post posts pid).2 = posts)
    ∧ ((update_post posts pid data).1 = UpdateResult.notFound →
        (update_post posts pid data).2 = posts) := by
  refine ⟨?_, ?_, ?_⟩
  · rcases add_post_shape posts data with ⟨post, hEq, -⟩ | ⟨m0, hEq⟩
    · intro m hm
      rw [hEq] at hm
      cases hm
    · intro m hm
      rw [hEq]
  · cases h : get_post_index_by_id posts pid with
    | none => simp [delete_post, h]
    | some idx =>
      intro hcon
      simp [delete_post, h] at hcon
  · cases h : get_post_index_by_id posts pid with
    | none => simp [update_post, h]
    | some idx =>
      obtain ⟨hlt, -⟩ := find_index_lt h
      have h2 : posts[idx]? = some posts[idx] := List.getElem?_eq_getElem hlt
      intro hcon
      simp [update_post, h, h2] at hcon

/-- Witness for C10: a create with an empty body, and a delete and update of
the unknown id 99, all leave the one-element store unchanged. -/
theorem failed_ops_leave_store_witness :
    (add_post [⟨1, "A", "x"⟩] []).2 = [⟨1, "A", "x"⟩]
    ∧ (delete_post [⟨1, "A", "x"⟩] 99).2 = [⟨1, "A", "x"⟩]
    ∧ (update_post [⟨1, "A", "x"⟩] 99 []).2 = [⟨1, "A", "x"⟩] :=
  ⟨(failed_ops_leave_store [⟨1, "A", "x"⟩] [] 99).1 ["title", "content"] (by decide),
    (failed_ops_leave_store [⟨1, "A", "x"⟩] [] 99).2.1 (by decide),
    (failed_ops_leave_store [⟨1, "A", "x"⟩] [] 99).2.2 (by decide)⟩

/-! ### Claim C9: update never changes ids -/

/-- C9: whatever the body contains (an `id` field included), update leaves
the sequence of stored ids unchanged, and the returned post carries the
requested id. -/
theorem update_preserves_ids (posts : List Post) (pid : Nat) (data : Body) :
    ((update_post posts pid data).2).map Post.id = posts.map Post.id
    ∧ ∀ p, (update_post posts pid data).1 = UpdateResult.updated p → p.id = pid := by
  cases h : get_post_index_by_id posts pid with
  | none => simp [update_post, h]
  | some idx =>
    obtain ⟨hlt, hid⟩ := find_index_lt h
    have h2 : posts[idx]? = some posts[idx] := List.getElem?_eq_getElem hlt
    constructor
    · simp only [update_post, h, h2]
      rw [List.map_set]
      have hmap : idx < (posts.map Post.id).length := by simpa using hlt
      have hEq : posts[idx].id = (posts.map Post.id)[idx] := by simp
      calc (posts.map Post.id).set idx posts[idx].id
          = (posts.map Post.id).set idx ((posts.map Post.id)[idx]) := by rw [hEq]
        _ = posts.map Post.id := list_set_self _ idx hmap
    · intro p hp
      simp only [update_post, h, h2] at hp
      cases hp
      exact hid

/-- Witness for C9: updating post 1 with a body that also carries an `id`
field leaves the stored ids untouched; the returned post has id 1. -/
theorem update_preserves_ids_witness :
    ((update_post [⟨1, "Old", "c"⟩] 1
        [("id", JVal.other true), ("title", JVal.str "New")]).2).map Post.id
      = [⟨1, "Old", "c"⟩].map Post.id
    ∧ (Post.mk 1 "New" "c").id = 1 :=
  ⟨(update_preserves_ids [⟨1, "Old", "c"⟩] 1
      [("id", JVal.other true), ("title", JVal.str "New")]).1,
    (update_preserves_ids [⟨1, "Old", "c"⟩] 1
      [("id", JVal.other true), ("title", JVal.str "New")]).2
      ⟨1, "New", "c"⟩ (by decide)⟩

/-! ### Claim C5: update field semantics -/

/-- C5 fails as stated: a provided empty-string title is a `str`, so it
overwrites the stored title with `""` instead of being ignored. -/
theorem update_empty_string_overwrites :
    (update_post [⟨1, "Old", "c"⟩] 1 [("title", JVal.str "")]).1
      = UpdateResult.updated ⟨1, "", "c"⟩
    ∧ (update_post [⟨1, "Old", "c"⟩] 1 [("title", JVal.str "")]).2
      = [⟨1, "", "c"⟩] := by
  decide

/-- C5 amended: for an existing id, any title/content bound to a string in
the body — the empty string included — overwrites the stored field, while an
omitted or non-string field is left unchanged without error; the updated
post is returned and stored in place. -/
theorem update_overwrite_semantics (posts : List Post) (pid : Nat) (data : Body)
    (h : ∃ p ∈ posts, p.id = pid) :
    ∃ idx, get_post_index_by_id posts pid = some idx
      ∧ ∃ hlt : idx < posts.length, ∃ post1,
        update_post posts pid data = (UpdateResult.updated post1, posts.set idx post1)
        ∧ post1.id = posts[idx].id
        ∧ (∀ s, data.lookup "title" = some (JVal.str s) → post1.title = s)
        ∧ ((∀ s, data.lookup "title" ≠ some (JVal.str s)) →
            post1.title = posts[idx].title)
        ∧ (∀ s, data.lookup "content" = some (JVal.str s) → post1.content = s)
        ∧ ((∀ s, data.lookup "content" ≠ some (JVal.str s)) →
            post1.content = posts[idx].content) := by
  obtain ⟨p0, hp0, he0⟩ := h
  have hg : get_post_index_by_id posts pid
      = some (posts.findIdx (fun post => post.id == pid)) :=
    List.findIdx?_eq_some_of_exists ⟨p0, hp0, by simp [he0]⟩
  obtain ⟨hlt, -⟩ := find_index_lt hg
  have h2 := List.getElem?_eq_getElem hlt
  refine ⟨_, hg, hlt,
    ⟨(posts[posts.findIdx (fun post => post.id == pid)]).id,
      (match data.lookup "title" with
        | some (JVal.str s) => s
        | _ => (posts[posts.findIdx (fun post => post.id == pid)]).title),
      (match data.lookup "content" with
        | some (JVal.str s) => s
        | _ => (posts[posts.findIdx (fun post => post.id == pid)]).content)⟩,
    ?_, rfl, ?_, ?_, ?_, ?_⟩
  · simp only [update_post, hg, h2]
  · intro s hs
    simp only [hs]
  · intro hns
    cases hT : data.lookup "title" with
    | none => simp only [hT]
    | some v =>
      cases v with
      | str s => exact absurd hT (hns s)
      | other b => simp only [hT]
  · intro s hs
    simp only [hs]
  · intro hns
    cases hC : data.lookup "content" with
    | none => simp only [hC]
    | some v =>
      cases v with
      | str s => exact absurd hC (hns s)
      | other b => simp only [hC]

/-- Witness for the amended C5 at a one-post store and a body binding
`title` to the empty string. -/
theorem update_overwrite_semantics_witness :
    ∃ idx, get_post_index_by_id [⟨1, "Old", "c"⟩] 1 = some idx
      ∧ ∃ hlt : idx < ([⟨1, "Old", "c"⟩] : List Post).length, ∃ post1,
        update_post [⟨1, "Old", "c"⟩] 1 [("title", JVal.str "")]
          = (UpdateResult.updated post1, ([⟨1, "Old", "c"⟩] : List Post).set idx post1)
        ∧ post1.id = (([⟨1, "Old", "c"⟩] : List Post)[idx]).id
        ∧ (∀ s, (([("title", JVal.str "")] : Body)).lookup "title"
              = some (JVal.str s) → post1.title = s)
        ∧ ((∀ s, (([("title", JVal.str "")] : Body)).lookup "title"
              ≠ some (JVal.str s)) →
            post1.title = (([⟨1, "Old", "c"⟩] : List Post)[idx]).title)
        ∧ (∀ s, (([("title", JVal.str "")] : Body)).lookup "content"
              = some (JVal.str s) → post1.content = s)
        ∧ ((∀ s, (([("title", JVal.str "")] : Body)).lookup "content"
              ≠ some (JVal.str s)) →
            post1.content = (([⟨1, "Old", "c"⟩] : List Post)[idx]).content) :=
  update_overwrite_semantics [⟨1, "Old", "c"⟩] 1 [("title", JVal.str "")]
    ⟨⟨1, "Old", "c"⟩, by decide, rfl⟩

/-! ### Claim C2: create validation -/

/-- C2 fails as stated: a whitespace-only title is empty after trimming, yet
create succeeds and stores it, because the code tests Python truthiness and
never trims. -/
theorem create_accepts_blank_title :
    trimStr " " = ""
    ∧ (add_post [] [("title", JVal.str " "), ("content", JVal.str "x")]).1
      = CreateResult.created ⟨1, " ", "x"⟩ := by
  decide

/-- C2 amended: create fails with a `400` naming every falsy field — one that
is absent, bound to the empty string, or bound to a falsy non-string value
(truthiness, not trimming: whitespace-only strings pass) — and succeeds,
appending the new post, exactly when both fields are truthy. -/
theorem create_validation_semantics (posts : List Post) (data : Body) :
    (¬(pyTruthy (data.lookup "title") = true
        ∧ pyTruthy (data.lookup "content") = true) →
      ∃ missing, add_post posts data = (CreateResult.badRequest missing, posts)
        ∧ missing ≠ []
        ∧ ("title" ∈ missing ↔ pyTruthy (data.lookup "title") = false)
        ∧ ("content" ∈ missing ↔ pyTruthy (data.lookup "content") = false))
    ∧ (pyTruthy (data.lookup "title") = true →
        pyTruthy (data.lookup "content") = true →
        ∃ post, add_post posts data = (CreateResult.created post, posts ++ [post])) := by
  constructor
  · intro h
    refine ⟨_, add_post_of_not_truthy h, ?_, ?_, ?_⟩ <;>
      cases ht : pyTruthy (data.lookup "title") <;>
        cases hc : pyTruthy (data.lookup "content") <;>
        simp_all
  · intro ht hc
    exact ⟨_, add_post_of_truthy ht hc⟩

/-- Witness for the amended C2: a body whose content is missing. -/
theorem create_validation_semantics_witness :
    ∃ missing,
      add_post [] [("title", JVal.str "T")]
        = (CreateResult.badRequest missing, [])
      ∧ missing ≠ []
      ∧ ("title" ∈ missing
          ↔ pyTruthy ((([("title", JVal.str "T")] : Body)).lookup "title") = false)
      ∧ ("content" ∈ missing
          ↔ pyTruthy ((([("title", JVal.str "T")] : Body)).lookup "content") = false) :=
  (create_validation_semantics [] [("title", JVal.str "T")]).1 (by decide)

/-! ### Claim C4: invalid direction handling -/

/-- C4 fails as stated: with no sort field, an invalid direction is never
inspected and the full list is returned with `200`. -/
theorem direction_ignored_without_sort :
    list_posts [⟨1, "A", "a"⟩] none (some "sideways")
      = ListResult.ok [⟨1, "A", "a"⟩] := by
  decide

/-- C4 amended: an out-of-range direction produces the `400` InvalidArgument
response only when a valid sort field is given; with no sort field the
direction is ignored and the collection is returned with `200`. -/
theorem direction_check_requires_sort (posts : List Post)
    (sortArg dirArg : Option String) :
    (pyNorm sortArg "" = "" → list_posts posts sortArg dirArg = ListResult.ok posts)
    ∧ ((pyNorm sortArg "" = "title" ∨ pyNorm sortArg "" = "content") →
        pyNorm dirArg "asc" ≠ "asc" → pyNorm dirArg "asc" ≠ "desc" →
        list_posts posts sortArg dirArg
          = ListResult.badRequest
              ("Invalid direction " ++ pyNorm dirArg "asc" ++ ". Allowed: asc, desc.")) := by
  constructor
  · intro h
    simp [list_posts, h]
  · intro hs hd1 hd2
    have d1 : (pyNorm dirArg "asc" == "asc") = false := by
      simp [hd1]
    have d2 : (pyNorm dirArg "asc" == "desc") = false := by
      simp [hd2]
    rcases hs with h | h <;> simp [list_posts, h, d1, d2]

/-- Witness for the amended C4: a valid sort field with a bogus direction. -/
theorem direction_check_requires_sort_witness :
    list_posts [] (some "title") (some "sideways")
      = ListResult.badRequest
          ("Invalid direction " ++ pyNorm (some "sideways") "asc" ++ ". Allowed: asc, desc.") :=
  (direction_check_requires_sort [] (some "title") (some "sideways")).2
    (Or.inl (by decide)) (by decide) (by decide)

/-! ### Claim C3: list sorted by title, descending -/

theorem pySorted_true (key : Post → String) (l : List Post) :
    pySorted key true l = l.mergeSort (fun a b => decide (key b ≤ key a)) :=
  rfl

theorem descLe_trans :
    ∀ a b c : Post, (fun a b : Post => decide (lowerStr b.title ≤ lowerStr a.title)) a b = true →
      (fun a b : Post => decide (lowerStr b.title ≤ lowerStr a.title)) b c = true →
      (fun a b : Post => decide (lowerStr b.title ≤ lowerStr a.title)) a c = true := by
  intro a b c h1 h2
  simp only [decide_eq_true_eq] at h1 h2 ⊢
  exact le_trans h2 h1

theorem descLe_total :
    ∀ a b : Post, ((fun a b : Post => decide (lowerStr b.title ≤ lowerStr a.title)) a b
      || (fun a b : Post => decide (lowerStr b.title ≤ lowerStr a.title)) b a) = true := by
  intro a b
  rcases le_total (lowerStr b.title) (lowerStr a.title) with h | h <;> simp [h]

/-- C3: `list(sort="title", direction="desc")` succeeds with a permutation of
the store in reverse case-insensitive lexicographic title order, and posts
with equal lower-cased titles keep their original relative order (for every
key, the sublist with that key is exactly the one of the input). -/
theorem list_title_desc_spec (posts : List Post) :
    ∃ out, list_posts posts (some "title") (some "desc") = ListResult.ok out
      ∧ out.Perm posts
      ∧ List.Pairwise (fun a b => lowerStr b.title ≤ lowerStr a.title) out
      ∧ ∀ k : String,
          out.filter (fun post => lowerStr post.title == k)
            = posts.filter (fun post => lowerStr post.title == k) := by
  refine ⟨pySorted (fun post => lowerStr post.title) true posts, rfl, ?_, ?_, ?_⟩
  · rw [pySorted_true]
    exact List.mergeSort_perm posts _
  · rw [pySorted_true]
    have h := List.sorted_mergeSort descLe_trans descLe_total posts
    exact h.imp (fun hd => of_decide_eq_true hd)
  · intro k
    rw [pySorted_true]
    have hsub0 : ((posts.filter (fun post => lowerStr post.title == k))).Sublist posts :=
      List.filter_sublist posts
    have hpw : (posts.filter (fun post => lowerStr post.title == k)).Pairwise
        (fun a b : Post => decide (lowerStr b.title ≤ lowerStr a.title) = true) := by
      apply List.pairwise_of_forall_mem_list
      intro a ha b hb
      have ha2 : lowerStr a.title = k := by
        simpa using (List.mem_filter.mp ha).2
      have hb2 : lowerStr b.title = k := by
        simpa using (List.mem_filter.mp hb).2
      simp [ha2, hb2]
    have hsub : (posts.filter (fun post => lowerStr post.title == k)).Sublist
        (posts.mergeSort (fun a b => decide (lowerStr b.title ≤ lowerStr a.title))) :=
      List.sublist_mergeSort descLe_trans descLe_total hpw hsub0
    have hself : (posts.filter (fun post => lowerStr post.title == k)).filter
        (fun post => lowerStr post.title == k)
        = posts.filter (fun post => lowerStr post.title == k) :=
      List.filter_eq_self.mpr (fun a ha => (List.mem_filter.mp ha).2)
    have hsub2 : (posts.filter (fun post => lowerStr post.title == k)).Sublist
        ((posts.mergeSort (fun a b => decide (lowerStr b.title ≤ lowerStr a.title))).filter
          (fun post => lowerStr post.title == k)) := by
      have h2 := List.Sublist.filter (fun post => lowerStr post.title == k) hsub
      rwa [hself] at h2
    have hpermf :
        ((posts.mergeSort (fun a b => decide (lowerStr b.title ≤ lowerStr a.title))).filter
          (fun post => lowerStr post.title == k)).Perm
          (posts.filter (fun post => lowerStr post.title == k)) :=
      (List.mergeSort_perm posts _).filter _
    exact (hsub2.eq_of_length hpermf.length_eq.symm).symm

/-! ### Claim C6: search semantics -/

/-- C6: search with both queries blank (after trimming) returns the empty
list; otherwise it returns, in collection order, exactly the posts whose
lower-cased title contains the normalised title query (when non-empty) or
whose lower-cased content contains the normalised content query (when
non-empty). -/
theorem search_semantics (posts : List Post) (titleArg contentArg : Option String) :
    (pyNorm titleArg "" = "" → pyNorm contentArg "" = "" →
      search_posts posts titleArg contentArg = [])
    ∧ (search_posts posts titleArg contentArg).Sublist posts
    ∧ (¬(pyNorm titleArg "" = "" ∧ pyNorm contentArg "" = "") →
        ∀ p, p ∈ search_posts posts titleArg contentArg ↔
          p ∈ posts ∧
            ((pyNorm titleArg "" ≠ ""
                ∧ strContains (lowerStr p.title) (pyNorm titleArg "") = true)
              ∨ (pyNorm contentArg "" ≠ ""
                ∧ strContains (lowerStr p.content) (pyNorm contentArg "") = true))) := by
  refine ⟨?_, ?_, ?_⟩
  · intro h1 h2
    simp [search_posts, h1, h2]
  · simp only [search_posts]
    split
    · exact List.nil_sublist posts
    · exact List.filter_sublist posts
  · intro h p
    have hcond : (pyNorm titleArg "" == "" && pyNorm contentArg "" == "") = false := by
      rcases not_and_or.mp h with h1 | h1 <;> simp [h1]
    simp [search_posts, hcond, List.mem_filter, Bool.and_eq_true, Bool.or_eq_true,
      bne_iff_ne]

/-- Witness for C6 on a concrete store and a title query that needs trimming
and lower-casing. -/
theorem search_semantics_witness :
    (⟨1, "Hello World", "abc"⟩ : Post)
        ∈ search_posts [⟨1, "Hello World", "abc"⟩, ⟨2, "Bye", "xyz"⟩]
            (some " WORLD ") none
      ↔ (⟨1, "Hello World", "abc"⟩ : Post)
          ∈ ([⟨1, "Hello World", "abc"⟩, ⟨2, "Bye", "xyz"⟩] : List Post)
        ∧ ((pyNorm (some " WORLD ") "" ≠ ""
              ∧ strContains (lowerStr "Hello World") (pyNorm (some " WORLD ") "") = true)
            ∨ (pyNorm none "" ≠ ""
              ∧ strContains (lowerStr "abc") (pyNorm none "") = true)) :=
  (search_semantics [⟨1, "Hello World", "abc"⟩, ⟨2, "Bye", "xyz"⟩]
      (some " WORLD ") none).2.2 (by decide) ⟨1, "Hello World", "abc"⟩
